import Mathlib

/-!
Shallow embedding of the `overseer` task crate (`src/task`): the data model
(`CronTask`, `FileEventTask`, `TaskCommand`, `MyCommand`, `Host`, the error
types), the task-runner aggregation, the file-event debouncing state machine,
the monitor loop, and the load-time parsers (`MyCommand::deserialize`,
`Host::deserialize`, `de_env_vars`), together with theorems settling the
spec's claims against them.

Conventions: machine integers are `Nat`/`Int`; `Instant` timestamps are `Nat`
milliseconds; fallible operations return `Option`/`Except`; effects of
external collaborators (the filesystem, process exits, channel deliveries)
are passed in explicitly as values or oracle functions.
-/

namespace Overseer

/-- Embeds `CommandRunErrorType` (src/task/src/error.rs, lines 31-41): the failure
reason attached to a command-run error.  `asyncJoin` embeds the `Async`
variant (a `tokio::task::JoinError`, i.e. the spawned unit panicked or was
aborted), `ioErr` the `Io` variant, `exitStatus` the `ExitStatus(i32)`
variant, `ssh` the `Ssh` variant. -/
inductive CommandRunErrorType where
  | asyncJoin
  | ioErr
  | exitStatus (code : Int)
  | ssh
  deriving DecidableEq, Repr

/-- Embeds `CommandRunError` (src/task/src/error.rs, lines 24-29): the owning
command's name (the `name` field) plus a failure reason (the `r#type`
field, embedded as `rtype`). -/
structure CommandRunError where
  name : String
  rtype : CommandRunErrorType
  deriving DecidableEq, Repr

/-- Outcome of one spawned execution unit as observed by the task runner
after joining it: `tokio::spawn(cmd.run…())` joins to
`Ok(Ok(()))` (`ok`), `Ok(Err(cre))` (`cmdErr`), or `Err(JoinError)`
(`joinErr`, the unit crashed/was aborted before producing a result). -/
inductive UnitOutcome where
  | ok
  | cmdErr (e : CommandRunError)
  | joinErr
  deriving DecidableEq, Repr

/-- src/task/src/file.rs lines 102-109: how `FileEventTask::run` converts one
joined unit outcome into an optional failure.  A `joinErr` becomes a
synthetic `CommandRunError` whose `name` is `self.name` — the *task's*
name — with reason `Async`. -/
def unitFailure (taskName : String) : UnitOutcome → Option CommandRunError
  | .ok => none
  | .cmdErr e => some e
  | .joinErr => some ⟨taskName, .asyncJoin⟩

/-- Holds exactly on outcomes `FileEventTask::run` counts as failures. -/
def unitFailed (u : UnitOutcome) : Bool :=
  match u with
  | .ok => false
  | _ => true

/-- src/task/src/file.rs lines 89-118 (`FileEventTask::run`): the results of
`future::join_all` (one per command, in spawn order — `join_all` preserves
the order of its input futures regardless of completion timing) are folded
into either success (no failures) or the full, order-preserving list of
failures. -/
def fileRunAggregate (taskName : String) (results : List UnitOutcome) :
    Except (List CommandRunError) Unit :=
  let errors := results.filterMap (unitFailure taskName)
  if errors.isEmpty then .ok () else .error errors

/-- src/task/src/cron.rs lines 106-124 (`CronTask::run`): the spawned units
are awaited with `future::try_join_all`, whose `Err` case fires on the first
`JoinError` among the handles; command-level `Err(CommandRunError)` values
ride inside the `Ok(results)` vector and are ignored (only logged), so the
run returns `Ok(())` whenever no unit crashed, even if every command failed.
The `JoinError` payload is opaque, embedded as `Unit`; completion timing is
modelled as list order. -/
def cronRunAggregate (results : List UnitOutcome) : Except Unit Unit :=
  if results.any (· = .joinErr) then .error () else .ok ()

/-- Embeds `MyCommand` (src/task/src/lib.rs lines 272-276): a program plus its
argument list. -/
structure MyCommand where
  program : String
  args : List String
  deriving DecidableEq, Repr

/-- An IP address as produced by Rust's `IpAddr::from_str`; `v6` carries the
eight 16-bit groups. -/
inductive IpAddr where
  | v4 (a b c d : Nat)
  | v6 (groups : List Nat)
  deriving DecidableEq, Repr

/-- Embeds `Host` (src/task/src/lib.rs lines 161-165): `Local`, or `Remote` holding
a parsed `IpAddr` (not a raw string). -/
inductive Host where
  | localHost
  | remote (addr : IpAddr)
  deriving DecidableEq, Repr

/-- Embeds `TaskCommand` (src/task/src/lib.rs lines 189-199): name, working
directory (`PathBuf`, serde-defaulted to the empty path), ordered
environment-variable pairs, and the parsed command spec (`run` field). -/
structure TaskCommand where
  name : String
  working_dir : String
  env_vars : List (String × String)
  inner : MyCommand
  deriving DecidableEq, Repr

/-- Embeds `FileEventTask` (src/task/src/file.rs lines 21-34). `dependencies` is a
`Vec<()>`, never resolved. -/
structure FileEventTask where
  name : String
  dependencies : List Unit
  watch_paths : List String
  host : Host
  commands : List TaskCommand

/-- Embeds `CronTask` (src/task/src/cron.rs lines 18-32). The atomic `id` is a
plain `Nat` here. -/
structure CronTask where
  name : String
  id : Nat
  dependencies : List Unit
  schedule : String
  host : Host
  commands : List TaskCommand

/-- src/task/src/file.rs lines 91-96: `FileEventTask::run` spawns exactly one
execution unit per command, in the commands' original order. -/
def fileEventSpawns (t : FileEventTask) : List TaskCommand :=
  t.commands

/-- src/task/src/cron.rs lines 109-113: `CronTask::run` likewise spawns one
unit per command. -/
def cronSpawns (t : CronTask) : List TaskCommand :=
  t.commands

/-- Result of `FileEventTask::run` given the joined outcome of each spawned unit. -/
def fileEventRun (t : FileEventTask) (results : List UnitOutcome) :
    Except (List CommandRunError) Unit :=
  fileRunAggregate t.name results

/-- Result of `CronTask::run` given the joined outcome of each spawned unit. -/
def cronRun (_t : CronTask) (results : List UnitOutcome) : Except Unit Unit :=
  cronRunAggregate results

/-- Kinds of `notify::Event`, as far as the trigger inspects them.  The
sub-kind payloads (`CreateKind` etc.) are collapsed to a `Nat` tag so that
two events of the same top-level kind can still be structurally unequal,
matching `Event`'s derived `PartialEq`. -/
inductive EventKind where
  | create (sub : Nat)
  | modify (sub : Nat)
  | remove (sub : Nat)
  | access (sub : Nat)
  | other
  deriving DecidableEq, Repr

/-- Embeds `notify::Event`: kind plus affected paths (attrs omitted —
structural equality on these two fields stands in for the derived
`PartialEq`). -/
structure Event where
  kind : EventKind
  paths : List String
  deriving DecidableEq, Repr

/-- Embeds `PreEventHandler::relevant` (src/task/src/file.rs lines 137-140):
only `Create`, `Modify` and `Remove` events are considered. -/
def relevant (e : Event) : Bool :=
  match e.kind with
  | .create _ => true
  | .modify _ => true
  | .remove _ => true
  | _ => false

/-- Embeds `PreEventHandlerInner` (src/task/src/file.rs lines 187-191): the
previous event and its arrival `Instant`, in milliseconds. -/
structure PreEventHandlerInner where
  prev_time : Nat
  prev_event : Event
  deriving DecidableEq, Repr

/-- Embeds `PreEventHandler::DEBOUNCE` (src/task/src/file.rs line 128):
500 ms. -/
def DEBOUNCE : Nat := 500

/-- Embeds `PreEventHandler::debouncing` (src/task/src/file.rs lines
142-151): suppress iff some previous event is recorded, the new event equals
it, and strictly less than `DEBOUNCE` has elapsed since it was recorded. -/
def debouncing (inner : Option PreEventHandlerInner) (now : Nat) (e : Event) :
    Bool :=
  match inner with
  | some i => i.prev_event = e && now - i.prev_time < DEBOUNCE
  | none => false

/-- Embeds `PreEventHandler::handle_event` on an `Ok` event (src/task/src/
file.rs lines 160-184): irrelevant events leave the state untouched and are
not forwarded; a relevant event is forwarded iff `debouncing` is false, and
in either case `remember` (lines 153-156) replaces the recorded previous
event with this event at the current instant.  Returns the new state and
whether the event was forwarded on the channel. -/
def handleEvent (inner : Option PreEventHandlerInner) (now : Nat) (e : Event) :
    Option PreEventHandlerInner × Bool :=
  if relevant e then
    if !debouncing inner now e then (some ⟨now, e⟩, true)
    else (some ⟨now, e⟩, false)
  else (inner, false)

/-- Runs the handler over a timed event trace, returning the forwarded flag
of each event in order. -/
def runHandler (inner : Option PreEventHandlerInner) :
    List (Nat × Event) → List Bool
  | [] => []
  | (t, e) :: rest =>
    let r := handleEvent inner t e
    r.2 :: runHandler r.1 rest

/-- Modelled from the claim's words, for comparison with `handleEvent`: an
event is suppressed iff it is structurally identical to the immediately
preceding *forwarded* event and arrives within 500 ms of it; otherwise it is
forwarded and becomes the new previous event.  State is the last forwarded
event and its time. -/
def claimHandleEvent (last : Option (Nat × Event)) (now : Nat) (e : Event) :
    Option (Nat × Event) × Bool :=
  if relevant e then
    match last with
    | some (t0, e0) =>
      if e0 = e && now - t0 < DEBOUNCE then (last, false)
      else (some (now, e), true)
    | none => (some (now, e), true)
  else (last, false)

/-- Runs the claim's debounce rule over a timed event trace. -/
def runClaimHandler (last : Option (Nat × Event)) :
    List (Nat × Event) → List Bool
  | [] => []
  | (t, e) :: rest =>
    let r := claimHandleEvent last t e
    r.2 :: runClaimHandler r.1 rest

/-- How a reference to the parent task is held.  Rust's `Arc` is `strong`
(owning, keeps the referent alive); `Weak` would be non-owning. -/
inductive RefKind where
  | strong
  | weak
  deriving DecidableEq, Repr

/-- Embeds `PostEventHandler` (src/task/src/file.rs lines 202-206): its
`parent` field has type `Arc<FileEventTask>`, i.e. a strong reference; the
receiver and watcher are kept abstract. -/
structure PostEventHandler where
  parentRef : RefKind
  parentTask : FileEventTask

/-- Embeds the handler construction in `FileEventTask::activate`
(src/task/src/file.rs lines 73-77): `parent: self.clone()` clones the `Arc`,
producing another strong reference. -/
def mkPostEventHandler (t : FileEventTask) : PostEventHandler :=
  { parentRef := .strong, parentTask := t }

/-- Number of strong owners of the task while the monitor is alive, given
the number of external strong owners: the handler's own reference counts
iff it is strong. -/
def strongCount (external : Nat) (h : PostEventHandler) : Nat :=
  external + (match h.parentRef with | .strong => 1 | .weak => 0)

/-- Holds when the task has been destroyed (no strong owner remains). -/
def taskDestroyed (external : Nat) (h : PostEventHandler) : Bool :=
  strongCount external h = 0

/-- Embeds the monitor loop `PostEventHandler::monitor` (src/task/src/file.rs
lines 209-226) run over a finite prefix of channel deliveries (`some e` for a
received event, `none` for channel closure): on `Some(_)` it invokes
`self.parent.clone().run()` unconditionally — there is no liveness or
upgrade check in the loop — and continues; on `None` it returns.  The result
is the number of task-body invocations and whether the loop returned within
this prefix. -/
def monitorLoop : List (Option Event) → Nat × Bool
  | [] => (0, false)
  | none :: _ => (0, true)
  | some _ :: rest =>
    let r := monitorLoop rest
    (r.1 + 1, r.2)

/-- Splits a character list at the first occurrence of `sep`, mirroring
Rust's `str::split_once`: `none` when `sep` does not occur. -/
def splitOnce (sep : Char) : List Char → Option (List Char × List Char)
  | [] => none
  | c :: rest =>
    if c = sep then some ([], rest)
    else match splitOnce sep rest with
      | some (a, b) => some (c :: a, b)
      | none => none

/-- Splits a character list at every occurrence of `sep`, mirroring Rust's
`str::split`: always at least one piece, empty pieces kept. -/
def splitAll (sep : Char) : List Char → List (List Char)
  | [] => [[]]
  | c :: rest =>
    if c = sep then [] :: splitAll sep rest
    else match splitAll sep rest with
      | a :: tail => (c :: a) :: tail
      | [] => [[c]]

/-- Hexadecimal digits (lowercase) of `n`, most significant first. -/
def hexChars (n : Nat) : List Char :=
  Nat.toDigits 16 n

/-- Escapes one character the way Rust's `str` `Debug` impl does
(`char::escape_debug` with double quotes escaped and single quotes not):
the named escapes, backslash-u braces for other control characters, and the
character itself otherwise.  Printability is modelled exactly for ASCII;
characters above 0x7f are treated as printable. -/
def escapeDebugChar (c : Char) : List Char :=
  if c = '\t' then ['\\', 't']
  else if c = '\x0d' then ['\\', 'r']
  else if c = '\n' then ['\\', 'n']
  else if c = '\\' then ['\\', '\\']
  else if c = '"' then ['\\', '"']
  else if c = '\x00' then ['\\', '0']
  else if c.toNat < 0x20 || c.toNat = 0x7f then
    ['\\', 'u', '\x7b'] ++ hexChars c.toNat ++ ['\x7d']
  else [c]

/-- Embeds Rust's `format!` with the `:?` (Debug) specifier applied to a
string: surrounding double quotes plus per-character escaping. -/
def rustDebugStr (s : String) : String :=
  ⟨'"' :: (s.data.map escapeDebugChar).flatten ++ ['"']⟩

/-- Embeds `MyCommand::deserialize` (src/task/src/lib.rs lines 286-316).
The local filesystem is abstracted as the oracle `isExecPath`, embedding
`Path::new(&input).exists() && path.is_executable()` — note the source
applies this check to the whole input string, not to its first token.  When
the check succeeds the input is split at the first space into program and
args (args re-split on every space); when it fails the fallback is program
`sh` with the single argument produced by Debug-formatting the entire input
(so the argument carries literal surrounding quotes, and there is no `-c`
flag). -/
def myCommandDeserialize (isExecPath : String → Bool) (input : String) :
    MyCommand :=
  if isExecPath input then
    match splitOnce ' ' input.data with
    | some (program, args) =>
      { program := ⟨program⟩,
        args := (splitAll ' ' args).map fun l => (⟨l⟩ : String) }
    | none => { program := input, args := [] }
  else
    { program := "sh", args := [rustDebugStr input] }

/-- Embeds a built `tokio::process::Command`: program, arguments, the
optional working directory (`none` while `current_dir` has not been called)
and the environment pairs added on top of the inherited environment
(`Command::envs` is additive). -/
structure Invocation where
  program : String
  args : List String
  cwd : Option String
  addedEnvs : List (String × String)
  deriving DecidableEq, Repr

/-- Embeds `MyCommand::build` (src/task/src/lib.rs lines 279-283):
`Command::new(program)` plus `args`; no working directory, no added
environment. -/
def MyCommand.build (mc : MyCommand) : Invocation :=
  { program := mc.program, args := mc.args, cwd := none, addedEnvs := [] }

/-- Embeds the construction phase of `TaskCommand::run` (src/task/src/lib.rs
lines 205-208): `command.current_dir(&self.working_dir)` is called
unconditionally — also when `working_dir` is the serde default, the empty
path — and `envs(self.env_vars.clone())` adds the configured pairs. -/
def buildInvocation (tc : TaskCommand) : Invocation :=
  { tc.inner.build with cwd := some tc.working_dir, addedEnvs := tc.env_vars }

/-- Behavior of the spawned local process, supplied by the environment:
spawn failure, failure while awaiting, or termination with `exit.code()`
(`none` when the process was terminated by a signal and has no exit code;
`exit.success()` is `code = some 0`). -/
inductive ProcessBehavior where
  | spawnFail
  | waitFail
  | exits (code : Option Int)
  deriving DecidableEq, Repr

/-- Embeds the result mapping of `TaskCommand::run` (src/task/src/lib.rs
lines 211-243): spawn or wait failures yield an `Io` error; a successful
exit yields `Ok`; an unsuccessful exit with a code yields `ExitStatus(code)`;
an unsuccessful exit without a code hits
`exit.code().expect("No exit code")` — a panic, embedded as `none` (a
returned value is `some`). -/
def taskCommandRunResult (tc : TaskCommand) (b : ProcessBehavior) :
    Option (Except CommandRunError Unit) :=
  match b with
  | .spawnFail => some (.error ⟨tc.name, .ioErr⟩)
  | .waitFail => some (.error ⟨tc.name, .ioErr⟩)
  | .exits code =>
    if code = some 0 then some (.ok ())
    else
      match code with
      | some c => some (.error ⟨tc.name, .exitStatus c⟩)
      | none => none

/-- Modelled from the spec: `TaskCommand::run_remote` is called by
`FileEventTask::run` (src/task/src/file.rs line 95) and its transport
failure variant `Ssh` is declared in src/task/src/error.rs, but the function
body itself is not under src/.  Spec section 4.1, remote run: synthesize a
single shell line — if any env_vars are present, prepend
`export K1=V1 K2=V2 ... && `; if working_dir is non-default, insert
`cd <working_dir> && `; append the program and its arguments space-joined. -/
def remoteShellLine (tc : TaskCommand) : String :=
  let envPart :=
    if tc.env_vars.isEmpty then ""
    else
      "export "
        ++ String.intercalate " " (tc.env_vars.map fun kv => kv.1 ++ "=" ++ kv.2)
        ++ " && "
  let cdPart :=
    if tc.working_dir = "" then "" else "cd " ++ tc.working_dir ++ " && "
  envPart ++ cdPart ++ String.intercalate " " (tc.inner.program :: tc.inner.args)

/-- Behavior of the remote execution, supplied by the environment: a
session-establishment/transport failure, or completion with an exit code. -/
inductive RemoteBehavior where
  | transportFail
  | exits (code : Int)
  deriving DecidableEq, Repr

/-- Modelled from the spec: the remote run's outcome mapping — the same
success/failure mapping as local runs plus the distinct `Ssh` reason for
session-establishment or transport errors (src/task/src/error.rs line 40). -/
def taskCommandRunRemoteResult (tc : TaskCommand) (b : RemoteBehavior) :
    Except CommandRunError Unit :=
  match b with
  | .transportFail => .error ⟨tc.name, .ssh⟩
  | .exits c => if c = 0 then .ok () else .error ⟨tc.name, .exitStatus c⟩

/-- Holds on Unicode white-space characters, mirroring Rust's
`char::is_whitespace` (the White_Space property). -/
def rustIsWhitespace (c : Char) : Bool :=
  (0x09 ≤ c.toNat && c.toNat ≤ 0x0d) || c.toNat = 0x20 || c.toNat = 0x85
    || c.toNat = 0xa0 || c.toNat = 0x1680
    || (0x2000 ≤ c.toNat && c.toNat ≤ 0x200a)
    || c.toNat = 0x2028 || c.toNat = 0x2029 || c.toNat = 0x202f
    || c.toNat = 0x205f || c.toNat = 0x3000

/-- Mirrors Rust's `str::trim_end`. -/
def trimEndChars (l : List Char) : List Char :=
  (l.reverse.dropWhile rustIsWhitespace).reverse

/-- Mirrors Rust's `str::trim_start`. -/
def trimStartChars (l : List Char) : List Char :=
  l.dropWhile rustIsWhitespace

/-- Holds on `a`-`z`, mirroring Rust's `char::is_ascii_lowercase`. -/
def isAsciiLowercase (c : Char) : Bool :=
  'a' ≤ c && c ≤ 'z'

/-- Embeds the per-line body of `de_env_vars` (src/task/src/lib.rs lines
251-267): split at the first `=`; on success the key is the left part with
trailing whitespace trimmed and the value the right part with leading
whitespace trimmed, and the warning flag records whether the raw key
contains an ASCII lowercase character (`warn!` is emitted but parsing
succeeds); with no `=` in the line, parsing fails. -/
def parseEnvVarLine (line : String) :
    Except Unit ((String × String) × Bool) :=
  match splitOnce '=' line.data with
  | some (key, val) =>
    .ok ((⟨trimEndChars key⟩, ⟨trimStartChars val⟩), key.any isAsciiLowercase)
  | none => .error ()

/-- Embeds `de_env_vars` over the whole list (src/task/src/lib.rs lines
246-270): lines are processed in order and the first line without `=` makes
the whole deserialization fail. -/
def deEnvVars : List String → Except Unit (List (String × String))
  | [] => .ok []
  | line :: rest =>
    match parseEnvVarLine line with
    | .ok (kv, _) => (deEnvVars rest).map (kv :: ·)
    | .error _ => .error ()

/-- Maps one character to its value as a digit in the given radix, mirroring
Rust's `char::to_digit`. -/
def charToDigit (radix : Nat) (c : Char) : Option Nat :=
  let v :=
    if '0' ≤ c && c ≤ '9' then some (c.toNat - 48)
    else if 'a' ≤ c && c ≤ 'z' then some (c.toNat - 97 + 10)
    else if 'A' ≤ c && c ≤ 'Z' then some (c.toNat - 65 + 10)
    else none
  match v with
  | some d => if d < radix then some d else none
  | none => none

/-- Greedy digit-consumption loop of Rust std's `Parser::read_number`
(core::net::parser): consumes digits while available, failing the whole read
if the accumulated value exceeds `maxVal` (the checked arithmetic of the
target integer type) or the digit count exceeds `maxDigits`.  Returns the
value, the digit count and the rest. -/
def readNumberLoop (radix maxVal : Nat) (maxDigits : Option Nat) :
    List Char → Nat → Nat → Option (Nat × Nat × List Char)
  | [], acc, count => some (acc, count, [])
  | c :: rest, acc, count =>
    match charToDigit radix c with
    | none => some (acc, count, c :: rest)
    | some d =>
      let acc' := acc * radix + d
      if acc' > maxVal then none
      else
        let count' := count + 1
        match maxDigits with
        | some m =>
          if count' > m then none
          else readNumberLoop radix maxVal maxDigits rest acc' count'
        | none => readNumberLoop radix maxVal maxDigits rest acc' count'

/-- Embeds Rust std's `Parser::read_number` (core::net::parser): at least one
digit, bounded value and digit count, and — unless `allowZeroPrefix` — no
leading zero on a multi-digit number.  Atomic: on failure the caller keeps
its original input. -/
def readNumber (radix maxVal : Nat) (maxDigits : Option Nat)
    (allowZeroPrefix : Bool) (s : List Char) : Option (Nat × List Char) :=
  let hasLeadingZero := match s with | c :: _ => c = '0' | [] => false
  match readNumberLoop radix maxVal maxDigits s 0 0 with
  | none => none
  | some (v, count, rest) =>
    if count = 0 then none
    else if !allowZeroPrefix && hasLeadingZero && count > 1 then none
    else some (v, rest)

/-- Reads `.` followed by one IPv4 octet (decimal, at most 3 digits, value
at most 255, no zero prefix), as in `read_ipv4_addr`'s non-first groups. -/
def readDotOctet (s : List Char) : Option (Nat × List Char) :=
  match s with
  | '.' :: rest => readNumber 10 255 (some 3) false rest
  | _ => none

/-- Embeds Rust std's `Parser::read_ipv4_addr`: four dot-separated octets. -/
def readIpv4 (s : List Char) :
    Option ((Nat × Nat × Nat × Nat) × List Char) :=
  (readNumber 10 255 (some 3) false s).bind fun av =>
    (readDotOctet av.2).bind fun bv =>
      (readDotOctet bv.2).bind fun cv =>
        (readDotOctet cv.2).map fun dv =>
          ((av.1, bv.1, cv.1, dv.1), dv.2)

/-- Reads `:` when `i > 0` (group separator), mirroring Rust std's
`Parser::read_separator` for IPv6 groups. -/
def readColonSep (i : Nat) (s : List Char) : Option (List Char) :=
  if i = 0 then some s
  else
    match s with
    | ':' :: rest => some rest
    | _ => none

/-- Embeds Rust std's `read_groups` (core::net::parser) over `limit`
remaining group slots, `i` being the index of the next group (separator
required when positive).  At each position with at least two slots left, a
trailing embedded IPv4 address is tried first and fills two groups; then a
hex group of at most 4 digits (zero prefixes allowed) is read.  Returns the
groups read, the rest of the input, and whether an embedded IPv4 address
ended the read. -/
def readGroupsAux : Nat → Nat → List Char → List Nat × List Char × Bool
  | 0, _, s => ([], s, false)
  | limit + 1, i, s =>
    let tryV4 : Option (List Nat × List Char) :=
      if 1 ≤ limit then
        match readColonSep i s with
        | some s' =>
          match readIpv4 s' with
          | some (oct, rest) =>
            some ([oct.1 * 256 + oct.2.1, oct.2.2.1 * 256 + oct.2.2.2], rest)
          | none => none
        | none => none
      else none
    match tryV4 with
    | some (two, rest) => (two, rest, true)
    | none =>
      match readColonSep i s with
      | some s' =>
        match readNumber 16 65535 (some 4) true s' with
        | some (g, rest) =>
          let r := readGroupsAux limit (i + 1) rest
          (g :: r.1, r.2.1, r.2.2)
        | none => ([], s, false)
      | none => ([], s, false)

/-- Embeds Rust std's `Parser::read_ipv6_addr`: up to eight head groups; a
full eight is an address; otherwise an embedded IPv4 address is not allowed
before `::`, a literal `::` must follow, and the tail groups (at most
`8 - head - 1`) are right-aligned with zero groups in between. -/
def readIpv6 (s : List Char) : Option (IpAddr × List Char) :=
  let h := readGroupsAux 8 0 s
  let head := h.1
  if head.length = 8 then some (.v6 head, h.2.1)
  else if h.2.2 then none
  else
    match h.2.1 with
    | ':' :: ':' :: s2 =>
      let t := readGroupsAux (8 - (head.length + 1)) 0 s2
      let tail := t.1
      let zeros := List.replicate (8 - head.length - tail.length) 0
      some (.v6 (head ++ zeros ++ tail), t.2.1)
    | _ => none

/-- Embeds Rust std's `Parser::read_ip_addr`: IPv4 first, IPv6 on failure. -/
def readIpAddr (s : List Char) : Option (IpAddr × List Char) :=
  match readIpv4 s with
  | some (oct, rest) => some (.v4 oct.1 oct.2.1 oct.2.2.1 oct.2.2.2, rest)
  | none => readIpv6 s

/-- Embeds `IpAddr::from_str` (`parse_with`): the read must consume the whole
input. -/
def parseIpAddr (s : String) : Option IpAddr :=
  match readIpAddr s.data with
  | some (ip, []) => some ip
  | _ => none

/-- Lowercases ASCII `A`-`Z`, mirroring Rust's `str::to_ascii_lowercase`. -/
def asciiLowerChar (c : Char) : Char :=
  if 'A' ≤ c && c ≤ 'Z' then Char.ofNat (c.toNat + 32) else c

/-- Mirrors Rust's `String::to_ascii_lowercase`. -/
def asciiLower (s : String) : String :=
  ⟨s.data.map asciiLowerChar⟩

/-- Embeds the first match arm of `Host::deserialize` (src/task/src/lib.rs
line 180): whether the lowercased input is one of the four `Local`
literals. -/
def hostLiteralLocal (l : String) : Bool :=
  l = "local" || l = "localhost" || l = "127.0.0.1" || l = "::1"

/-- Embeds `Host::deserialize` (src/task/src/lib.rs lines 173-187): the input
string is ASCII-lowercased; `local`, `localhost`, `127.0.0.1` and `::1` map
to `Local`; any other string is handed to `IpAddr::from_str`, a successful
parse giving `Remote(addr)` and a failed parse a deserialization error
(collapsed to `Unit`). -/
def hostDeserialize (s : String) : Except Unit Host :=
  if hostLiteralLocal (asciiLower s) then .ok .localHost
  else
    match parseIpAddr (asciiLower s) with
    | some ip => .ok (.remote ip)
    | none => .error ()

/-- Embeds the serde handling of the `host` field (src/task/src/lib.rs lines
57-58 and 167-171): absent means `Default::default()`, i.e. `Local`;
present means `Host::deserialize` of the string. -/
def hostFromField : Option String → Except Unit Host
  | none => .ok .localHost
  | some s => hostDeserialize s

/-! ### Helper lemmas -/

theorem unitFailure_eq_none_iff (tn : String) (u : UnitOutcome) :
    unitFailure tn u = none ↔ unitFailed u = false := by
  cases u <;> simp [unitFailure, unitFailed]

theorem filterMap_eq_range_filterMap {α β : Type} (f : α → Option β)
    (l : List α) :
    l.filterMap f = (List.range l.length).filterMap fun i => (l[i]?).bind f := by
  induction l with
  | nil => simp
  | cons a l ih =>
    rw [List.length_cons, List.range_succ_eq_map, List.filterMap_cons,
      List.filterMap_cons, List.filterMap_map]
    have htail : ((fun i => ((a :: l)[i]?).bind f) ∘ Nat.succ)
        = fun i => (l[i]?).bind f := by
      funext i
      simp
    rw [htail, ← ih]
    simp

theorem monitorLoop_spec (msgs : List (Option Event)) :
    (monitorLoop msgs).1 = (msgs.takeWhile (fun m => m.isSome)).length
    ∧ (monitorLoop msgs).2 = msgs.any (fun m => m.isNone) := by
  induction msgs with
  | nil => simp [monitorLoop]
  | cons m rest ih =>
    cases m with
    | none => simp [monitorLoop, List.takeWhile_cons]
    | some e => simp [monitorLoop, List.takeWhile_cons, ih.1, ih.2]

theorem splitOnce_eq_none_iff (sep : Char) (l : List Char) :
    splitOnce sep l = none ↔ sep ∉ l := by
  induction l with
  | nil => simp [splitOnce]
  | cons c rest ih =>
    by_cases hc : c = sep
    · subst hc
      simp [splitOnce]
    · have hstep : (splitOnce sep (c :: rest) = none)
          ↔ (splitOnce sep rest = none) := by
        simp only [splitOnce, if_neg hc]
        cases splitOnce sep rest with
        | none => simp
        | some p =>
          cases p
          simp
      rw [hstep, ih, List.mem_cons]
      constructor
      · intro h hmem
        rcases hmem with h1 | h1
        · exact hc h1.symm
        · exact h h1
      · intro h h1
        exact h (Or.inr h1)

theorem splitOnce_some_spec (sep : Char) (l : List Char) :
    ∀ k v, splitOnce sep l = some (k, v) → l = k ++ sep :: v ∧ sep ∉ k := by
  induction l with
  | nil =>
    intro k v h
    simp [splitOnce] at h
  | cons c rest ih =>
    intro k v h
    by_cases hc : c = sep
    · subst hc
      simp [splitOnce] at h
      obtain ⟨hk, hv⟩ := h
      subst hk
      subst hv
      simp
    · simp only [splitOnce, if_neg hc] at h
      cases hrec : splitOnce sep rest with
      | none =>
        rw [hrec] at h
        exact Option.noConfusion h
      | some p =>
        rw [hrec] at h
        obtain ⟨a, b⟩ := p
        simp at h
        obtain ⟨hk, hv⟩ := h
        obtain ⟨hl, hmem⟩ := ih a b hrec
        subst hk
        subst hv
        constructor
        · simp [hl]
        · simp only [List.mem_cons]
          rintro (hsc | hmem')
          · exact hc hsc.symm
          · exact hmem hmem'

theorem fileRunAggregate_eq (tn : String) (results : List UnitOutcome) :
    fileRunAggregate tn results =
      if results.filterMap (unitFailure tn) = [] then .ok ()
      else .error (results.filterMap (unitFailure tn)) := by
  unfold fileRunAggregate
  by_cases h : results.filterMap (unitFailure tn) = []
  · simp [h]
  · simp [h]

/-! ### Claim theorems -/

/-- C1 (counterexample): a cron task run over one command whose execution
unit failed with a `CommandRunError` returns success, contradicting the
claim that every task run "returns success exactly when no unit failed;
otherwise it returns the complete list of failures".  `CronTask::run` awaits
with `try_join_all` and ignores the command-level errors inside the `Ok`
vector (they are only logged). -/
theorem c1_counterexample :
    cronRun
        ⟨"cron-task", 0, [], "* * * * *", .localHost,
          [⟨"c1", "", [], ⟨"/bin/false", []⟩⟩]⟩
        [.cmdErr ⟨"c1", .exitStatus 1⟩] = .ok ()
    ∧ unitFailed (.cmdErr ⟨"c1", .exitStatus 1⟩) = true :=
  ⟨rfl, rfl⟩

/-- C1 (amended): a file-event task run spawns one unit per command, waits
for all of them, succeeds iff no unit failed, and otherwise reports the
complete failure list in ascending command-index order, where a command's
own failure carries the command's name but the synthetic failure for a
crashed unit carries the task's name; a cron task run instead succeeds iff
no unit crashed — command failures are only logged — and otherwise returns
the first crash as a `JoinError`. -/
theorem c1_task_runner_aggregation (t : FileEventTask)
    (results : List UnitOutcome) :
    (fileEventSpawns t = t.commands)
    ∧ (fileEventRun t results = .ok ()
        ↔ results.all (fun u => !unitFailed u) = true)
    ∧ (∀ errs, fileEventRun t results = .error errs →
        errs = (List.range results.length).filterMap
            (fun i => (results[i]?).bind (unitFailure t.name))
          ∧ errs ≠ [])
    ∧ (∀ e, unitFailure t.name (.cmdErr e) = some e)
    ∧ (unitFailure t.name .joinErr = some ⟨t.name, .asyncJoin⟩)
    ∧ (∀ ct : CronTask, cronRun ct results = .ok ()
        ↔ UnitOutcome.joinErr ∉ results) := by
  refine ⟨rfl, ?_, ?_, fun e => rfl, rfl, fun ct => ?_⟩
  · unfold fileEventRun
    rw [fileRunAggregate_eq]
    by_cases h : results.filterMap (unitFailure t.name) = []
    · rw [if_pos h]
      constructor
      · intro _
        rw [List.all_eq_true]
        intro u hu
        have hn := List.filterMap_eq_nil_iff.mp h u hu
        have := (unitFailure_eq_none_iff t.name u).mp hn
        simpa using this
      · intro _
        rfl
    · rw [if_neg h]
      constructor
      · intro hcon
        exact Except.noConfusion hcon
      · intro hall
        exfalso
        apply h
        rw [List.filterMap_eq_nil_iff]
        intro u hu
        apply (unitFailure_eq_none_iff t.name u).mpr
        have := List.all_eq_true.mp hall u hu
        simpa using this
  · intro errs herr
    unfold fileEventRun at herr
    rw [fileRunAggregate_eq] at herr
    by_cases h : results.filterMap (unitFailure t.name) = []
    · rw [if_pos h] at herr
      exact Except.noConfusion herr
    · rw [if_neg h] at herr
      have heq : results.filterMap (unitFailure t.name) = errs := by
        injection herr
      constructor
      · rw [← heq]
        exact filterMap_eq_range_filterMap _ _
      · rw [← heq]
        exact h
  · unfold cronRun cronRunAggregate
    cases hany : results.any (· = UnitOutcome.joinErr) with
    | false =>
      simp only [hany, Bool.false_eq_true, if_false]
      constructor
      · intro _ hmem
        have := List.any_eq_false.mp hany _ hmem
        simp at this
      · intro _
        trivial
    | true =>
      simp only [hany, if_true]
      constructor
      · intro hcon
        exact Except.noConfusion hcon
      · intro hnotin
        exfalso
        rcases List.any_eq_true.mp hany with ⟨u, hu, hju⟩
        rw [decide_eq_true_eq] at hju
        exact hnotin (hju ▸ hu)

/-- C1 (witness): the amended theorem applied to a concrete three-command
run — one success, one command failure, one crashed unit — yielding the two
failures in ascending index order (the crashed unit's synthetic failure
carrying the task name "ftask"). -/
theorem c1_task_runner_aggregation_witness :
    ([⟨"c2", .exitStatus 1⟩, ⟨"ftask", .asyncJoin⟩] : List CommandRunError)
        = (List.range 3).filterMap
            (fun i =>
              (([UnitOutcome.ok, .cmdErr ⟨"c2", .exitStatus 1⟩, .joinErr])[i]?).bind
                (unitFailure "ftask"))
    ∧ ([⟨"c2", .exitStatus 1⟩, ⟨"ftask", .asyncJoin⟩] : List CommandRunError)
        ≠ [] :=
  (c1_task_runner_aggregation ⟨"ftask", [], ["/tmp"], .localHost, []⟩
    [.ok, .cmdErr ⟨"c2", .exitStatus 1⟩, .joinErr]).2.2.1
    [⟨"c2", .exitStatus 1⟩, ⟨"ftask", .asyncJoin⟩] rfl

/-- C2 (counterexample): after the last external owner of a file-event task
is released (zero external strong references), the parent is *not* observed
as destroyed — the handler built by `activate` holds its own strong `Arc`
(`parent: self.clone()`), keeping the strong count at 1 — and the next
delivered event causes one task-body invocation with no termination,
contradicting the claim that the monitor then terminates without invoking
the task body. -/
theorem c2_counterexample :
    taskDestroyed 0
        (mkPostEventHandler ⟨"ftask", [], ["/tmp"], .localHost, []⟩) = false
    ∧ monitorLoop [some ⟨.modify 0, ["/tmp/f"]⟩] = (1, false) :=
  ⟨rfl, rfl⟩

/-- C2 (amended): the background monitor holds an owning (strong) reference
to the parent task, so the task's strong count is `external + 1` while the
monitor lives and the task is never destroyed by dropping external owners
alone; the monitor invokes the task body once per delivered event and
terminates exactly when the channel closes (`recv` returns `None`), with no
liveness check before running. -/
theorem c2_monitor_lifecycle (t : FileEventTask) (external : Nat)
    (msgs : List (Option Event)) :
    (mkPostEventHandler t).parentRef = .strong
    ∧ strongCount external (mkPostEventHandler t) = external + 1
    ∧ taskDestroyed external (mkPostEventHandler t) = false
    ∧ (monitorLoop msgs).1 = (msgs.takeWhile (fun m => m.isSome)).length
    ∧ (monitorLoop msgs).2 = msgs.any (fun m => m.isNone) := by
  refine ⟨rfl, rfl, ?_, (monitorLoop_spec msgs).1, (monitorLoop_spec msgs).2⟩
  simp [taskDestroyed, strongCount, mkPostEventHandler]

/-- C3 (code bug, evaluation at the failing input): with a filesystem on
which `/bin/echo` exists and is executable but the literal path
`/bin/echo hello` does not, `MyCommand::deserialize` of the input
`/bin/echo hello` does *not* produce program=`/bin/echo`,
args=`["hello"]` — the existence check is applied to the whole input
string, so the parse falls back to the shell branch, which builds `sh` with
the single Debug-quoted argument (literal quotes included) and no `-c`
flag, contradicting both the claim and the crate's own documentation
(src/task/src/lib.rs lines 19-20). -/
theorem c3_command_parse_evaluation :
    myCommandDeserialize (fun s => decide (s = "/bin/echo")) "/bin/echo hello"
        = ⟨"sh", ["\"/bin/echo hello\""]⟩
    ∧ myCommandDeserialize (fun s => decide (s = "/bin/echo")) "/bin/echo hello"
        ≠ ⟨"/bin/echo", ["hello"]⟩
    ∧ myCommandDeserialize (fun s => decide (s = "/bin/echo")) "/bin/echo"
        = ⟨"/bin/echo", []⟩ := by
  refine ⟨rfl, ?_, rfl⟩
  decide

/-- C4 (counterexample): for an identical relevant event arriving at t=0
(forwarded), t=400ms (suppressed) and t=700ms, the code suppresses the third
event — `remember` updates the previous event on *every* relevant event, so
the 700ms event is compared against the suppressed 400ms event (300ms
elapsed, inside the window) — while the claim's rule (compare against the
immediately preceding *forwarded* event, at t=0, 700ms elapsed) forwards
it. -/
theorem c4_counterexample :
    runHandler none
        [(0, ⟨.modify 0, ["/tmp/f"]⟩), (400, ⟨.modify 0, ["/tmp/f"]⟩),
          (700, ⟨.modify 0, ["/tmp/f"]⟩)]
      = [true, false, false]
    ∧ runClaimHandler none
        [(0, ⟨.modify 0, ["/tmp/f"]⟩), (400, ⟨.modify 0, ["/tmp/f"]⟩),
          (700, ⟨.modify 0, ["/tmp/f"]⟩)]
      = [true, false, true] :=
  ⟨rfl, rfl⟩

/-- C4 (amended): a relevant event is forwarded iff it is not suppressed,
where suppression compares against the immediately preceding *relevant*
event (forwarded or suppressed) — some recorded previous event, structurally
identical, with strictly less than 500 ms elapsed — and every relevant event
becomes the new previous event with a fresh timestamp; irrelevant events
change nothing.  The claim's three concrete examples still hold: an
identical event 200 ms after a forwarded one is dropped, an identical event
600 ms after is forwarded, a different event 50 ms after is forwarded. -/
theorem c4_debounce_amended (inner : Option PreEventHandlerInner) (now : Nat)
    (e : Event) :
    ((handleEvent inner now e).2 = (relevant e && !debouncing inner now e))
    ∧ (relevant e = true → (handleEvent inner now e).1 = some ⟨now, e⟩)
    ∧ (relevant e = false → (handleEvent inner now e).1 = inner)
    ∧ (debouncing inner now e = true ↔
        ∃ i, inner = some i ∧ i.prev_event = e
          ∧ now - i.prev_time < DEBOUNCE)
    ∧ runHandler none
        [(0, ⟨.modify 0, ["/f"]⟩), (200, ⟨.modify 0, ["/f"]⟩)]
        = [true, false]
    ∧ runHandler none
        [(0, ⟨.modify 0, ["/f"]⟩), (600, ⟨.modify 0, ["/f"]⟩)]
        = [true, true]
    ∧ runHandler none
        [(0, ⟨.modify 0, ["/f"]⟩), (50, ⟨.create 0, ["/g"]⟩)]
        = [true, true] := by
  refine ⟨?_, ?_, ?_, ?_, rfl, rfl, rfl⟩
  · unfold handleEvent
    cases hr : relevant e
    · simp [hr]
    · cases hd : debouncing inner now e <;> simp [hr, hd]
  · intro hr
    unfold handleEvent
    cases hd : debouncing inner now e <;> simp [hr, hd]
  · intro hr
    unfold handleEvent
    simp [hr]
  · cases inner with
    | none => simp [debouncing]
    | some i =>
      simp only [debouncing, Bool.and_eq_true, decide_eq_true_eq,
        Option.some.injEq]
      constructor
      · intro hp
        exact ⟨i, rfl, hp.1, hp.2⟩
      · rintro ⟨i2, hi, h1, h2⟩
        subst hi
        exact ⟨h1, h2⟩

/-- C4 (witness): the amended theorem applied at concrete inputs — a
relevant event at t=5 with no recorded state becomes the new previous
event, and an irrelevant (access) event leaves the recorded state
unchanged. -/
theorem c4_debounce_amended_witness :
    (handleEvent none 5 ⟨.modify 0, ["/f"]⟩).1
        = some ⟨5, ⟨.modify 0, ["/f"]⟩⟩
    ∧ (handleEvent (some ⟨0, ⟨.modify 0, ["/f"]⟩⟩) 5 ⟨.access 0, ["/f"]⟩).1
        = some ⟨0, ⟨.modify 0, ["/f"]⟩⟩ :=
  ⟨(c4_debounce_amended none 5 ⟨.modify 0, ["/f"]⟩).2.1 rfl,
    (c4_debounce_amended (some ⟨0, ⟨.modify 0, ["/f"]⟩⟩) 5
      ⟨.access 0, ["/f"]⟩).2.2.1 rfl⟩

/-- C5 (code bug, evaluation at the failing input): for a `TaskCommand`
whose `working_dir` was omitted (the serde default — the empty path),
`TaskCommand::run` still calls `current_dir`, so the built invocation's
working directory is `some ""` rather than unset (`none`, which would mean
inheriting the caller's current directory as the claim requires). -/
theorem c5_working_dir_always_set :
    (buildInvocation ⟨"touch-it", "", [], ⟨"/bin/true", []⟩⟩).cwd = some ""
    ∧ (buildInvocation ⟨"touch-it", "", [], ⟨"/bin/true", []⟩⟩).cwd ≠ none
    ∧ buildInvocation ⟨"touch-it", "", [], ⟨"/bin/true", []⟩⟩
        = ⟨"/bin/true", [], some "", []⟩ := by
  refine ⟨rfl, ?_, rfl⟩
  simp [buildInvocation, MyCommand.build]

/-- C6 (spec-modelled): the synthesized remote shell line for
working_dir=`/srv/app`, env_vars=`[("FOO","bar")]`, run=`./start.sh` is
exactly `export FOO=bar && cd /srv/app && ./start.sh`; with no env_vars and
a default working_dir the line is just the program and arguments
space-joined; the outcome mapping matches local runs (zero exit is success,
non-zero is `ExitStatus(code)`) with the distinct `Ssh` reason for
session-establishment or transport errors. -/
theorem c6_remote_invocation (n wd : String) (ev : List (String × String))
    (p : String) (a : List String) (c : Int) :
    remoteShellLine ⟨"start", "/srv/app", [("FOO", "bar")], ⟨"./start.sh", []⟩⟩
        = "export FOO=bar && cd /srv/app && ./start.sh"
    ∧ remoteShellLine ⟨n, "", [], ⟨p, a⟩⟩ = String.intercalate " " (p :: a)
    ∧ taskCommandRunRemoteResult ⟨n, wd, ev, ⟨p, a⟩⟩ .transportFail
        = .error ⟨n, .ssh⟩
    ∧ taskCommandRunRemoteResult ⟨n, wd, ev, ⟨p, a⟩⟩ (.exits c)
        = (if c = 0 then .ok () else .error ⟨n, .exitStatus c⟩) :=
  ⟨rfl, rfl, rfl, rfl⟩

/-- C7 (counterexample): `Host::deserialize` of `example.com` — a string
other than the four literals — fails with a deserialization error instead of
producing `Remote("example.com")` (the `Remote` payload is a parsed
`IpAddr`, and `example.com` is not an IP address), and `LOCAL` — also not
one of the four literal values — maps to `Local` because matching is
performed on the ASCII-lowercased input.  Both contradict the claim that
exactly the four literals map to `Local` and any other string `s` yields
`Remote(s)`. -/
theorem c7_counterexample :
    hostDeserialize "example.com" = .error ()
    ∧ hostDeserialize "LOCAL" = .ok .localHost :=
  ⟨rfl, rfl⟩

/-- C7 (amended): matching is on the ASCII-lowercased input — `local`,
`localhost`, `127.0.0.1`, `::1` in any ASCII case map to `Local`; any other
string is parsed with `IpAddr::from_str`, success giving `Remote(addr)` and
failure a deserialization error; an absent `host` field defaults to `Local`
and behaves identically to `host: local`. -/
theorem c7_host_deserialize_amended (s : String) :
    (hostDeserialize s = .ok .localHost
      ↔ hostLiteralLocal (asciiLower s) = true)
    ∧ (∀ ip, hostDeserialize s = .ok (.remote ip)
        ↔ hostLiteralLocal (asciiLower s) = false
          ∧ parseIpAddr (asciiLower s) = some ip)
    ∧ (hostDeserialize s = .error ()
        ↔ hostLiteralLocal (asciiLower s) = false
          ∧ parseIpAddr (asciiLower s) = none)
    ∧ hostFromField none = hostFromField (some "local")
    ∧ hostDeserialize "192.168.0.1" = .ok (.remote (.v4 192 168 0 1)) := by
  refine ⟨?_, ?_, ?_, rfl, rfl⟩
  · unfold hostDeserialize
    cases hb : hostLiteralLocal (asciiLower s)
    · simp only [hb, Bool.false_eq_true, if_false]
      cases hip : parseIpAddr (asciiLower s) <;> simp
    · simp [hb]
  · intro ip
    unfold hostDeserialize
    cases hb : hostLiteralLocal (asciiLower s)
    · simp only [hb, Bool.false_eq_true, if_false]
      cases hip : parseIpAddr (asciiLower s) <;> simp
    · simp [hb]
  · unfold hostDeserialize
    cases hb : hostLiteralLocal (asciiLower s)
    · simp only [hb, Bool.false_eq_true, if_false]
      cases hip : parseIpAddr (asciiLower s) <;> simp
    · simp [hb]

/-- C8 (confirmed): a configured environment-variable line is split at its
first `=` (the key is everything before the first `=`, which itself
contains no `=`), with whitespace trimmed at the split (trailing on the
key, leading on the value); parsing fails exactly when the line contains no
`=`; a key containing an ASCII lowercase character anywhere still parses
successfully, with the warning flag set.  Concretely, `KEY=value` yields
`("KEY","value")` with no warning, `NOEQUALS` fails, and `key=val` parses
with a warning. -/
theorem c8_env_var_parsing (line : String) :
    (parseEnvVarLine line = .error () ↔ '=' ∉ line.data)
    ∧ (∀ k v w, parseEnvVarLine line = .ok ((k, v), w) →
        ∃ rawk rawv, line.data = rawk ++ '=' :: rawv ∧ '=' ∉ rawk
          ∧ k = (⟨trimEndChars rawk⟩ : String)
          ∧ v = (⟨trimStartChars rawv⟩ : String)
          ∧ w = rawk.any isAsciiLowercase)
    ∧ parseEnvVarLine "KEY=value" = .ok (("KEY", "value"), false)
    ∧ parseEnvVarLine "NOEQUALS" = .error ()
    ∧ parseEnvVarLine "key=val" = .ok (("key", "val"), true) := by
  refine ⟨?_, ?_, rfl, rfl, rfl⟩
  · unfold parseEnvVarLine
    cases hsp : splitOnce '=' line.data with
    | none =>
      simp only [hsp]
      constructor
      · intro _
        exact (splitOnce_eq_none_iff '=' line.data).mp hsp
      · intro _
        trivial
    | some p =>
      obtain ⟨rawk, rawv⟩ := p
      simp only [hsp]
      constructor
      · intro hcon
        exact Except.noConfusion hcon
      · intro hmem
        exfalso
        have hn := (splitOnce_eq_none_iff '=' line.data).mpr hmem
        rw [hsp] at hn
        exact Option.noConfusion hn
  · intro k v w h
    unfold parseEnvVarLine at h
    cases hsp : splitOnce '=' line.data with
    | none =>
      rw [hsp] at h
      exact Except.noConfusion h
    | some p =>
      obtain ⟨rawk, rawv⟩ := p
      rw [hsp] at h
      simp only [Except.ok.injEq, Prod.mk.injEq] at h
      obtain ⟨⟨hk, hv⟩, hw⟩ := h
      obtain ⟨hline, hnot⟩ := splitOnce_some_spec '=' line.data rawk rawv hsp
      exact ⟨rawk, rawv, hline, hnot, hk.symm, hv.symm, hw.symm⟩

/-- C8 (witness): the per-line parse theorem applied to the concrete input
`key=val`, whose raw key is `key` (no `=`, lowercase present). -/
theorem c8_env_var_parsing_witness :
    ∃ rawk rawv, ("key=val" : String).data = rawk ++ '=' :: rawv
      ∧ '=' ∉ rawk
      ∧ ("key" : String) = (⟨trimEndChars rawk⟩ : String)
      ∧ ("val" : String) = (⟨trimStartChars rawv⟩ : String)
      ∧ true = rawk.any isAsciiLowercase :=
  (c8_env_var_parsing "key=val").2.1 "key" "val" true rfl

/-- C9 (confirmed): a local command whose process terminates unsuccessfully
without an exit code (signal termination: `exit.success()` false,
`exit.code()` `None`) hits `exit.code().expect("No exit code")` — a panic,
embedded as `none` — rather than returning any `CommandRunError` to the
caller. -/
theorem c9_missing_exit_code_panics (tc : TaskCommand) :
    taskCommandRunResult tc (.exits none) = none :=
  rfl

/-- C10 (confirmed): a task whose commands list is empty spawns no execution
unit, and both runners return success on the empty outcome list; nothing at
load or run time rejects an explicitly empty `commands` list. -/
theorem c10_empty_commands_run_succeeds (n sched : String) (h : Host)
    (ps : List String) (idn : Nat) :
    fileEventSpawns ⟨n, [], ps, h, []⟩ = []
    ∧ fileEventRun ⟨n, [], ps, h, []⟩ [] = .ok ()
    ∧ cronSpawns ⟨n, idn, [], sched, h, []⟩ = []
    ∧ cronRun ⟨n, idn, [], sched, h, []⟩ [] = .ok () :=
  ⟨rfl, rfl, rfl, rfl⟩

end Overseer
